import Mathlib

/-!
Verification of the webclan server (`server/app.py`) against its specification.

The FastAPI handlers of `server/app.py` are shallowly embedded below.  Paths
are strings, the filesystem is an abstract record of total functions (`FS`),
byte sequences are `List Nat`, and every handler becomes a pure Lean function
returning a `Resp` value (the JSON payload on success, the `HTTPException`
status/detail pair on failure).  Stateful handlers additionally return the
updated filesystem.
-/

set_option autoImplicit false

namespace Webclan

/-! ## Constants of `server/app.py` -/

/-- `WORK_DIR = Path("/webclan/work")`. -/
def WORK_DIR : String := "/webclan/work"

/-- `BIN_DIR = Path("/webclan/unix/bin")`. -/
def BIN_DIR : String := "/webclan/unix/bin"

/-- `MAX_FILE_SIZE = 100 * 1024 * 1024`. -/
def MAX_FILE_SIZE : Nat := 100 * 1024 * 1024

/-- `COMMAND_TIMEOUT = 300`. -/
def COMMAND_TIMEOUT : Nat := 300

/-! ## String and list helpers mirroring the Python primitives -/

/-- Python `str.startswith` / `Path` prefix test on character lists. -/
def listStarts : List Char → List Char → Bool
  | [], _ => true
  | _ :: _, [] => false
  | a :: as, b :: bs => a == b && listStarts as bs

/-- `s.startswith(pre)` for strings. -/
def pyStartswith (s pre : String) : Bool :=
  listStarts pre.data s.data

/-- Joining a directory path and a simple entry name, modelling
`Path(dir) / name` for the absolute directories used by the server. -/
def pathJoin (d n : String) : String := d ++ "/" ++ n

/-- Containment in the directory-tree sense: `p` is `d` itself or lies
strictly below `d`.  This is the meaning of "lies under the directory"
used by the specification. -/
def underDirB (d p : String) : Bool :=
  p == d || listStarts (d ++ "/").data p.data

/-- `os.path.basename`: everything after the last `/`. -/
def pyBasename (s : String) : String :=
  ⟨(s.data.reverse.takeWhile (fun c => c != '/')).reverse⟩

/-- Lowercasing, `str.lower` (ASCII fragment, which covers every string the
validators accept). -/
def pyLower (s : String) : String := ⟨s.data.map Char.toLower⟩

/-- `s.endswith(suf)`. -/
def pyEndswith (s suf : String) : Bool :=
  listStarts suf.data.reverse s.data.reverse

/-- Scan for a `".."` substring, modelling Python's `'..' in s`. -/
def hasDotDot : List Char → Bool
  | [] => false
  | [_] => false
  | a :: b :: rest => (a == '.' && b == '.') || hasDotDot (b :: rest)

/-! ## Model of `uuid.UUID(v)` (CPython `uuid.py`)

`uuid.UUID(hex=v)` performs:
  `hex = hex.replace('urn:', '').replace('uuid:', '')`
  `hex = hex.strip('{}').replace('-', '')`
  `if len(hex) != 32: raise ValueError`
  `int_ = int(hex, 16)`  -- then checks `0 <= int_ < 1 << 128`.
The ASCII fragment of `int(x, 16)` is modelled (Unicode digit and whitespace
forms are not). -/

/-- Python `str.replace(pat, '')` with a non-empty pattern `p :: ps`:
left-to-right, non-overlapping removal of every occurrence.  The fuel
argument (instantiated with the list length) only makes the recursion
structural; it never runs out. -/
def removeAllSubAux (p : Char) (ps : List Char) : Nat → List Char → List Char
  | _, [] => []
  | 0, l => l
  | fuel + 1, c :: rest =>
    if listStarts (p :: ps) (c :: rest) then removeAllSubAux p ps fuel (rest.drop ps.length)
    else c :: removeAllSubAux p ps fuel rest

def removeAllSub (p : Char) (ps : List Char) (l : List Char) : List Char :=
  removeAllSubAux p ps l.length l

/-- Strip characters satisfying `f` from both ends, Python `str.strip(set)`. -/
def stripBoth (f : Char → Bool) (l : List Char) : List Char :=
  ((l.dropWhile f).reverse.dropWhile f).reverse

/-- Brace characters stripped by `hex.strip('{}')`. -/
def isBrace (c : Char) : Bool := c.toNat == 123 || c.toNat == 125

/-- ASCII whitespace skipped by `int()`. -/
def isPySpace (c : Char) : Bool :=
  c.toNat == 32 || c.toNat == 9 || c.toNat == 10 ||
  c.toNat == 13 || c.toNat == 11 || c.toNat == 12

/-- Hexadecimal digit (either case), as accepted by `int(x, 16)`. -/
def isHexDigit (c : Char) : Bool :=
  (48 ≤ c.toNat && c.toNat ≤ 57) ||
  (97 ≤ c.toNat && c.toNat ≤ 102) ||
  (65 ≤ c.toNat && c.toNat ≤ 70)

/-- Value of a hexadecimal digit. -/
def hexDigitVal (c : Char) : Nat :=
  if 48 ≤ c.toNat ∧ c.toNat ≤ 57 then c.toNat - 48
  else if 97 ≤ c.toNat ∧ c.toNat ≤ 102 then c.toNat - 87
  else if 65 ≤ c.toNat ∧ c.toNat ≤ 70 then c.toNat - 55
  else 0

/-- Digit run after the first digit: hex digits with single interior
underscores, as in Python's integer grammar. -/
def hexRun : List Char → Bool
  | [] => true
  | c :: rest =>
    if c = '_' then
      match rest with
      | c2 :: rest2 => isHexDigit c2 && hexRun rest2
      | [] => false
    else isHexDigit c && hexRun rest

/-- A non-empty digit run starting with a hex digit. -/
def startsDigitRun : List Char → Bool
  | [] => false
  | c :: rest => isHexDigit c && hexRun rest

/-- Optional sign, Python `int()` grammar; returns (negative, remainder). -/
def stripSign (l : List Char) : Bool × List Char :=
  match l with
  | [] => (false, [])
  | c :: rest =>
    if c = '+' then (false, rest)
    else if c = '-' then (true, rest)
    else (false, l)

/-- One optional underscore directly after the `0x` base marker. -/
def dropUndAfterBase : List Char → List Char
  | [] => []
  | c2 :: rest2 => if c2 = '_' then rest2 else c2 :: rest2

/-- Optional `0x`/`0X` base marker (with one optional underscore after it),
Python `int(x, 16)` grammar. -/
def stripHexBase : List Char → List Char
  | [] => []
  | [c0] => [c0]
  | c0 :: c1 :: rest =>
    if c0 = '0' ∧ (c1 = 'x' ∨ c1 = 'X') then dropUndAfterBase rest
    else c0 :: c1 :: rest

/-- Value of a digit run (underscores skipped), accumulator form. -/
def hexVal : List Char → Nat → Nat
  | [], acc => acc
  | c :: rest, acc =>
    if c = '_' then hexVal rest acc
    else hexVal rest (16 * acc + hexDigitVal c)

/-- `int(h, 16)` succeeds and the resulting value satisfies the
`0 <= int_ < 1 << 128` range check of `uuid.UUID.__init__`. -/
def pyIntHexOk (l : List Char) : Bool :=
  let l1 := stripBoth isPySpace l
  let sg := stripSign l1
  let l2 := stripHexBase sg.2
  startsDigitRun l2 &&
    (if sg.1 then hexVal l2 0 == 0 else true) &&
    decide (hexVal l2 0 < 2 ^ 128)

/-- `uuid.UUID(v)` succeeds: the processed string has exactly 32 characters
and parses as a hexadecimal integer below `2 ^ 128`. -/
def pyUUIDOk (s : String) : Bool :=
  let h1 := removeAllSub 'u' ['r', 'n', ':'] s.data
  let h2 := removeAllSub 'u' ['u', 'i', 'd', ':'] h1
  let h3 := stripBoth isBrace h2
  let h4 := removeAllSub '-' [] h3
  h4.length == 32 && pyIntHexOk h4

/-- Modelled from the spec: a canonical, hyphenated-hex UUID string —
five groups of 8, 4, 4, 4 and 12 lowercase hexadecimal digits separated
by hyphens.  This is the spec-side definition used to compare the claimed
validator behaviour with `pyUUIDOk` above. -/
def isLowerHex (c : Char) : Bool :=
  (48 ≤ c.toNat && c.toNat ≤ 57) || (97 ≤ c.toNat && c.toNat ≤ 102)

def isCanonicalUUID (s : String) : Prop :=
  ∃ a b c d e : List Char,
    a.length = 8 ∧ b.length = 4 ∧ c.length = 4 ∧ d.length = 4 ∧ e.length = 12 ∧
    (∀ ch ∈ a ++ b ++ c ++ d ++ e, isLowerHex ch = true) ∧
    s.data = a ++ '-' :: (b ++ '-' :: (c ++ '-' :: (d ++ '-' :: e)))

/-! ## Validators of `server/app.py` -/

/-- Character class of `re.match(r'^[a-zA-Z0-9_-]+$', v)` in `validate_binary`. -/
def validBinaryChar (c : Char) : Bool :=
  c.isAlpha || c.isDigit || c == '_' || c == '-'

/-- Character class of `re.match(r'^[a-zA-Z0-9_.-]+$', s)` used for filenames. -/
def validFilenameChar (c : Char) : Bool :=
  c.isAlpha || c.isDigit || c == '_' || c == '.' || c == '-'

/-- `re.match(r'^[class]+$', s)` succeeds: a non-empty run of allowed
characters, optionally followed by one final newline (Python's `$` also
matches just before a trailing `'\n'`). -/
def reMatchPlusNL (allowed : Char → Bool) (s : String) : Bool :=
  let core := if s.data.getLast? == some '\n' then s.data.dropLast else s.data
  !core.isEmpty && core.all allowed

/-- `CommandRequest.validate_unique_id`: `uuid.UUID(v)` must succeed. -/
def validate_unique_id (v : String) : Bool := pyUUIDOk v

/-- `CommandRequest.validate_binary`. -/
def validate_binary (v : String) : Bool := reMatchPlusNL validBinaryChar v

/-- Forbidden shell metacharacters checked by `CommandRequest.validate_args`
(`;`, `&`, `|`, backtick, `$`, newline, carriage return). -/
def argForbiddenChar (c : Char) : Bool :=
  c == ';' || c == '&' || c == '|' || c == Char.ofNat 96 ||
  c == '$' || c == '\n' || c == '\r'

/-- One argument passes `CommandRequest.validate_args`: no forbidden
character, not an absolute path, and no `..` anywhere. -/
def argOk (a : String) : Bool :=
  !a.data.any argForbiddenChar && !(pyStartswith a "/") && !hasDotDot a.data

/-- `CommandRequest.validate_args`: every argument must pass. -/
def validate_args (v : List String) : Bool := v.all argOk

/-- The whole pydantic `CommandRequest` validation (`unique_id`, `binary`,
`args`); a failure is reported before the handler body runs. -/
def commandRequestValid (uid binary : String) (args : List String) : Bool :=
  validate_unique_id uid && validate_binary binary && validate_args args

/-- `validate_filename`: `.cha` extension (case-insensitive), no `/`, `\`
or `..`, and the conservative character set. -/
def validate_filename (f : String) : Bool :=
  pyEndswith (pyLower f) ".cha" &&
  !(f.data.any (fun c => c == '/')) &&
  !(f.data.any (fun c => c == '\\')) &&
  !hasDotDot f.data &&
  reMatchPlusNL validFilenameChar f

/-! ## UTF-8 (Python strict `bytes.decode('utf-8')`) and universal newlines -/

/-- Continuation byte `0x80 ..= 0xBF`. -/
def isCont (b : Nat) : Bool := 0x80 ≤ b && b ≤ 0xBF

/-- The byte sequence is valid UTF-8 (strict: rejects overlong forms,
surrogates and values above `U+10FFFF`), i.e. `content.decode('utf-8')`
succeeds.  This is `validate_file_content`. -/
def utf8Valid : List Nat → Bool
  | [] => true
  | b :: rest =>
    if b ≤ 0x7F then utf8Valid rest
    else if 0xC2 ≤ b && b ≤ 0xDF then
      match rest with
      | b2 :: r => isCont b2 && utf8Valid r
      | [] => false
    else if b == 0xE0 then
      match rest with
      | b2 :: b3 :: r => (0xA0 ≤ b2 && b2 ≤ 0xBF) && isCont b3 && utf8Valid r
      | _ => false
    else if (0xE1 ≤ b && b ≤ 0xEC) || b == 0xEE || b == 0xEF then
      match rest with
      | b2 :: b3 :: r => isCont b2 && isCont b3 && utf8Valid r
      | _ => false
    else if b == 0xED then
      match rest with
      | b2 :: b3 :: r => (0x80 ≤ b2 && b2 ≤ 0x9F) && isCont b3 && utf8Valid r
      | _ => false
    else if b == 0xF0 then
      match rest with
      | b2 :: b3 :: b4 :: r => (0x90 ≤ b2 && b2 ≤ 0xBF) && isCont b3 && isCont b4 && utf8Valid r
      | _ => false
    else if 0xF1 ≤ b && b ≤ 0xF3 then
      match rest with
      | b2 :: b3 :: b4 :: r => isCont b2 && isCont b3 && isCont b4 && utf8Valid r
      | _ => false
    else if b == 0xF4 then
      match rest with
      | b2 :: b3 :: b4 :: r => (0x80 ≤ b2 && b2 ≤ 0x8F) && isCont b3 && isCont b4 && utf8Valid r
      | _ => false
    else false

/-- `validate_file_content`: the bytes decode as UTF-8 text. -/
def validate_file_content (content : List Nat) : Bool := utf8Valid content

/-- Universal-newline translation performed by `open(path, 'r')`:
`\r\n` and lone `\r` become `\n`.  Since `0x0D`/`0x0A` never occur inside a
multi-byte UTF-8 sequence, the character-level translation of the decoded
text equals this byte-level translation on the file's UTF-8 bytes. -/
def univNewlines : List Nat → List Nat
  | [] => []
  | [b] => if b = 13 then [10] else [b]
  | b :: b2 :: rest =>
    if b = 13 then
      if b2 = 10 then 10 :: univNewlines rest
      else 10 :: univNewlines (b2 :: rest)
    else b :: univNewlines (b2 :: rest)

/-! ## Filesystem model and handler embeddings -/

/-- Abstract filesystem state.  `ex`/`isDir`/`isFile` model
`Path.exists`/`is_dir`/`is_file` (which follow symlinks), `resolve` models
`Path.resolve`, `xok` models `os.access(p, X_OK)`, `content p` holds the
bytes of the real file at the fully resolved path `p` (reading an
unresolved path reads `content (resolve p)`), and `children` models
`Path.iterdir` entry names. -/
structure FS where
  ex : String → Bool
  isDir : String → Bool
  isFile : String → Bool
  resolve : String → String
  xok : String → Bool
  content : String → List Nat
  children : String → List String

/-- `HTTPException(status_code, detail)`. -/
structure Err where
  code : Nat
  detail : String
deriving DecidableEq

/-- Handler outcome: a JSON payload or an `HTTPException`. -/
inductive Resp (α : Type) where
  | ok : α → Resp α
  | err : Err → Resp α
deriving DecidableEq

/-- `work_path.mkdir(parents=True, exist_ok=False)` (success case). -/
def mkdirFS (fs : FS) (d : String) : FS :=
  { fs with
    ex := fun p => if p = d then true else fs.ex p,
    isDir := fun p => if p = d then true else fs.isDir p }

/-- Writing `content` to the fresh regular file `p` (`open(p, 'wb')`),
success case; `p` is not a symlink, so its resolved path is itself. -/
def writeFileFS (fs : FS) (p : String) (c : List Nat) : FS :=
  { fs with
    ex := fun q => if q = p then true else fs.ex q,
    isFile := fun q => if q = p then true else fs.isFile q,
    content := fun q => if q = p then c else fs.content q }

/-- `shutil.rmtree(d)`: `d` and everything under it stops existing. -/
def rmtreeFS (fs : FS) (d : String) : FS :=
  { fs with
    ex := fun p => if underDirB d p then false else fs.ex p,
    isDir := fun p => if underDirB d p then false else fs.isDir p,
    isFile := fun p => if underDirB d p then false else fs.isFile p }

/-- Success payload of `/upload`. -/
structure UploadResp where
  unique_id : String
  filename : String
  size : Nat
  path : String
deriving DecidableEq

/-- The `/upload` handler.  `uid` is the freshly generated `uuid.uuid4()`
string; `writeOk` is the outcome of the `open/write` call (the oracle for
the rolled-back failure branch). -/
def upload_file (fs : FS) (uid filename : String) (content : List Nat)
    (writeOk : Bool) : Resp UploadResp × FS :=
  if !validate_filename filename then
    (.err ⟨400, "Invalid filename. Must be alphanumeric with .cha extension and no path separators"⟩, fs)
  else if MAX_FILE_SIZE < content.length then
    (.err ⟨400, "File too large"⟩, fs)
  else if !validate_file_content content then
    (.err ⟨400, "File content validation failed. Must be valid UTF-8 text."⟩, fs)
  else
    let work_path := pathJoin WORK_DIR uid
    if fs.ex work_path then (.err ⟨500, "Failed to create unique workspace"⟩, fs)
    else
      let fs1 := mkdirFS fs work_path
      let file_path := pathJoin work_path filename
      if writeOk then
        (.ok ⟨uid, filename, content.length, file_path⟩, writeFileFS fs1 file_path content)
      else
        (.err ⟨500, "Failed to save file"⟩, rmtreeFS fs1 work_path)

/-- The subprocess invocation parameters passed to `subprocess.run`. -/
structure SubprocessCall where
  argv : List String
  cwd : String
  captureOutput : Bool
  timeoutSec : Nat
  shell : Bool
  textMode : Bool
  env : List (String × String)
deriving DecidableEq

set_option linter.unusedVariables false in
/-- The `/execute` handler up to the `subprocess.run` call: either an
`HTTPException` or the exact invocation parameters.  `hostEnv` is the host
process environment; the handler never reads it, which is what makes the
child environment fully replaced. -/
def execute_command (fs : FS) (hostEnv : List (String × String))
    (uid binary : String) (args : List String) : Resp SubprocessCall :=
  if !commandRequestValid uid binary args then
    .err ⟨422, "request validation failed"⟩
  else
    let work_path := pathJoin WORK_DIR uid
    if !(fs.ex work_path && fs.isDir work_path) then .err ⟨404, "Workspace not found"⟩
    else
      let binary_name := pyBasename binary
      let binary_path := pathJoin BIN_DIR binary_name
      if !fs.ex binary_path then .err ⟨400, "Binary not found"⟩
      else if !fs.xok binary_path then .err ⟨400, "Binary is not executable"⟩
      else if !pyStartswith (fs.resolve binary_path) (fs.resolve BIN_DIR) then
        -- the inner `HTTPException(403, "Access denied: ...")` is itself caught
        -- by the surrounding `except Exception` and re-raised with this detail
        .err ⟨403, "Failed to resolve binary path"⟩
      else
        .ok { argv := binary_path :: args,
              cwd := work_path,
              captureOutput := true,
              timeoutSec := COMMAND_TIMEOUT,
              shell := false,
              textMode := true,
              env := [("PATH", BIN_DIR), ("HOME", work_path), ("LANG", "C.UTF-8")] }

/-- One entry of the `/list` payload. -/
structure FileEntry where
  name : String
  size : Option Nat
  type : String
deriving DecidableEq

/-- The `/list/{unique_id}` handler.  `item.stat().st_size` follows
symlinks, hence `content (resolve p)`. -/
def list_files (fs : FS) (uid : String) : Resp (String × List FileEntry) :=
  if !pyUUIDOk uid then .err ⟨400, "Invalid unique_id format"⟩
  else
    let work_path := pathJoin WORK_DIR uid
    if !fs.ex work_path then .err ⟨404, "Workspace not found"⟩
    else
      .ok (uid, (fs.children work_path).map (fun n =>
        let p := pathJoin work_path n
        { name := n,
          size := if fs.isFile p then some (fs.content (fs.resolve p)).length else none,
          type := if fs.isFile p then "file" else "directory" }))

/-- Success payload of `/download`; `contentBytes` holds the UTF-8 bytes of
the returned text (the decoded file content after universal-newline
translation), so `size = contentBytes.length` matches
`len(content.encode('utf-8'))`. -/
structure DownloadResp where
  unique_id : String
  filename : String
  size : Nat
  contentBytes : List Nat
deriving DecidableEq

/-- The `/download/{unique_id}/{filename}` handler. -/
def download_file (fs : FS) (uid filename : String) : Resp DownloadResp :=
  if !pyUUIDOk uid then .err ⟨400, "Invalid unique_id format"⟩
  else if filename.data.any (fun c => c == '/') ||
          filename.data.any (fun c => c == '\\') || hasDotDot filename.data then
    .err ⟨400, "Invalid filename"⟩
  else if !reMatchPlusNL validFilenameChar filename then
    .err ⟨400, "Filename contains invalid characters"⟩
  else
    let work_path := pathJoin WORK_DIR uid
    if !fs.ex work_path then .err ⟨404, "Workspace not found"⟩
    else
      let file_path := pathJoin work_path filename
      if !fs.ex file_path then .err ⟨404, "File not found"⟩
      else if !fs.isFile file_path then .err ⟨400, "Not a file"⟩
      else if !pyStartswith (fs.resolve file_path) (fs.resolve work_path) then
        -- inner `HTTPException(403, "Access denied")` caught by `except Exception`
        .err ⟨403, "Failed to resolve file path"⟩
      else
        let bytes := fs.content (fs.resolve file_path)
        if utf8Valid bytes then
          let txt := univNewlines bytes
          .ok ⟨uid, filename, txt.length, txt⟩
        else .err ⟨400, "File is not valid UTF-8 text"⟩

/-- The `/cleanup/{unique_id}` handler. -/
def cleanup_workspace (fs : FS) (uid : String) : Resp String × FS :=
  if !pyUUIDOk uid then (.err ⟨400, "Invalid unique_id format"⟩, fs)
  else
    let work_path := pathJoin WORK_DIR uid
    if !fs.ex work_path then (.err ⟨404, "Workspace not found"⟩, fs)
    else if !pyStartswith (fs.resolve work_path) (fs.resolve WORK_DIR) then
      -- inner `HTTPException(403, "Access denied")` caught by the surrounding
      -- `except Exception`, which reports 500 instead
      (.err ⟨500, "Failed to delete workspace"⟩, fs)
    else (.ok uid, rmtreeFS fs work_path)

/-! ## Timeout handling of `subprocess.run` (process-tree view)

On `TimeoutExpired`, `subprocess.run` calls `process.kill()`, which on POSIX
sends `SIGKILL` to the direct child's pid only — not to its process group —
and the handler turns the exception into `HTTPException(408, ...)`,
discarding the partial output attached to it. -/

/-- A running process: its pid and its parent's pid. -/
structure Proc where
  pid : Nat
  parent : Nat
deriving DecidableEq

/-- The process tree after `subprocess.run`'s timeout handling: only the
directly spawned child's pid is killed. -/
def timeoutKill (ps : List Proc) (child : Nat) : List Proc :=
  ps.filter (fun q => q.pid != child)

/-- Parent pid of `p` in the tree. -/
def parentOf (ps : List Proc) (p : Nat) : Option Nat :=
  (ps.find? (fun q => q.pid == p)).map Proc.parent

/-- `p` is a descendant of `anc` (fuel-bounded walk up the parent chain). -/
def isDescendant (ps : List Proc) : Nat → Nat → Nat → Bool
  | 0, _, _ => false
  | fuel + 1, p, anc =>
    match parentOf ps p with
    | none => false
    | some q => q == anc || isDescendant ps fuel q anc

/-- The `except subprocess.TimeoutExpired` branch of `/execute`. -/
def execute_timeout_response : Err :=
  ⟨408, "Command timed out after 300 seconds"⟩

/-! ## Concrete states used by witnesses and counterexamples -/

/-- A valid workspace id used by concrete instances. -/
def uidA : String := "11111111-1111-1111-1111-111111111111"

def wpA : String := pathJoin WORK_DIR uidA

/-- Empty filesystem with identity resolution. -/
def fsEmpty : FS :=
  { ex := fun _ => false, isDir := fun _ => false, isFile := fun _ => false,
    resolve := fun p => p, xok := fun _ => false,
    content := fun _ => [], children := fun _ => [] }

/-- Workspace `uidA` exists; `BIN_DIR` contains an executable entry `evil`
that is a symlink whose target resolves to `/webclan/unix/binx/evil` — a
path outside `BIN_DIR` whose string nevertheless extends `BIN_DIR`. -/
def fsC1 : FS :=
  { ex := fun p => p == wpA || p == pathJoin BIN_DIR "evil",
    isDir := fun p => p == wpA,
    isFile := fun p => p == pathJoin BIN_DIR "evil",
    resolve := fun p => if p == pathJoin BIN_DIR "evil" then "/webclan/unix/binx/evil" else p,
    xok := fun p => p == pathJoin BIN_DIR "evil",
    content := fun _ => [], children := fun _ => [] }

/-- Workspace `uidA` contains a symlink `link` resolving to
`/webclan/work/<uidA>-evil/secret` — outside the workspace directory, but
extending its path string; the target holds the byte `0x73`. -/
def fsC4 : FS :=
  { ex := fun p => p == wpA || p == pathJoin wpA "link",
    isDir := fun p => p == wpA,
    isFile := fun p => p == pathJoin wpA "link",
    resolve := fun p => if p == pathJoin wpA "link" then wpA ++ "-evil/secret" else p,
    xok := fun _ => false,
    content := fun p => if p == wpA ++ "-evil/secret" then [115] else [],
    children := fun _ => ["link"] }

/-- Like `fsC1`, but the planted symlink resolves to `/etc/evil`, whose
string does not extend `BIN_DIR` — the case the string-prefix check does
catch. -/
def fsC1w : FS :=
  { ex := fun p => p == wpA || p == pathJoin BIN_DIR "evil",
    isDir := fun p => p == wpA,
    isFile := fun p => p == pathJoin BIN_DIR "evil",
    resolve := fun p => if p == pathJoin BIN_DIR "evil" then "/etc/evil" else p,
    xok := fun p => p == pathJoin BIN_DIR "evil",
    content := fun _ => [], children := fun _ => [] }

/-- Like `fsC4`, but the symlink inside the workspace resolves to
`/etc/passwd`, whose string does not extend the workspace path — the case
the string-prefix check does catch. -/
def fsC4w : FS :=
  { ex := fun p => p == wpA || p == pathJoin wpA "link",
    isDir := fun p => p == wpA,
    isFile := fun p => p == pathJoin wpA "link",
    resolve := fun p => if p == pathJoin wpA "link" then "/etc/passwd" else p,
    xok := fun _ => false,
    content := fun _ => [], children := fun _ => ["link"] }

/-- Workspace `uidA` exists (for cleanup and execute witnesses); `BIN_DIR`
holds a well-behaved executable `freq`. -/
def fsAct : FS :=
  { ex := fun p => p == wpA || p == pathJoin BIN_DIR "freq",
    isDir := fun p => p == wpA,
    isFile := fun p => p == pathJoin BIN_DIR "freq",
    resolve := fun p => p,
    xok := fun p => p == pathJoin BIN_DIR "freq",
    content := fun _ => [], children := fun _ => [] }

/-! ## Helper lemmas -/

theorem listStarts_append (l t : List Char) : listStarts l (l ++ t) = true := by
  induction l with
  | nil => rfl
  | cons a as ih => simp [listStarts, ih]

theorem pyStartswith_pathJoin (d n : String) : pyStartswith (pathJoin d n) d = true := by
  have hdata : (pathJoin d n).data = d.data ++ (("/" : String).data ++ n.data) := by
    simp [pathJoin, String.data_append, List.append_assoc]
  simp [pyStartswith, hdata, listStarts_append]

theorem pathJoin_ne (d n : String) : pathJoin d n ≠ d := by
  intro h
  have hlen := congrArg String.length h
  have h1 : ("/" : String).length = 1 := rfl
  simp only [pathJoin, String.length_append, h1] at hlen
  omega

theorem underDirB_self (d : String) : underDirB d d = true := by
  simp [underDirB]

theorem removeAllSubAux_not_mem (p : Char) (ps : List Char) :
    ∀ (fuel : Nat) (l : List Char), p ∉ l → removeAllSubAux p ps fuel l = l := by
  intro fuel
  induction fuel with
  | zero => intro l _; cases l <;> rfl
  | succ n ih =>
    intro l h
    cases l with
    | nil => rfl
    | cons c rest =>
      have hpc : (p == c) = false :=
        beq_eq_false_iff_ne.mpr (fun he => h (by rw [he]; exact List.mem_cons_self c rest))
      simp [removeAllSubAux, listStarts, hpc,
        ih rest (fun hm => h (List.mem_cons_of_mem _ hm))]

theorem removeAllSub_not_mem (p : Char) (ps l : List Char) (h : p ∉ l) :
    removeAllSub p ps l = l :=
  removeAllSubAux_not_mem p ps l.length l h

theorem removeAllSubAux_single (p : Char) :
    ∀ (fuel : Nat) (l : List Char), l.length ≤ fuel →
      removeAllSubAux p [] fuel l = l.filter (fun c => c != p) := by
  intro fuel
  induction fuel with
  | zero =>
    intro l h
    have : l = [] := List.length_eq_zero.mp (Nat.le_zero.mp h)
    subst this; rfl
  | succ n ih =>
    intro l h
    cases l with
    | nil => rfl
    | cons c rest =>
      have hrest : rest.length ≤ n := by simpa using h
      by_cases hc : p = c
      · subst hc
        simp [removeAllSubAux, listStarts, List.filter_cons, ih rest hrest]
      · have hpc : (p == c) = false := beq_eq_false_iff_ne.mpr hc
        have hcp : (c != p) = true := bne_iff_ne.mpr (Ne.symm hc)
        simp [removeAllSubAux, listStarts, hpc, List.filter_cons, hcp, ih rest hrest]

theorem removeAllSub_hyphens (l : List Char) :
    removeAllSub '-' [] l = l.filter (fun c => c != '-') :=
  removeAllSubAux_single '-' l.length l (le_refl _)

theorem dropWhile_all_false (f : Char → Bool) (l : List Char)
    (h : ∀ c ∈ l, f c = false) : l.dropWhile f = l := by
  cases l with
  | nil => rfl
  | cons c rest => rw [List.dropWhile_cons, h c (by simp)]; simp

theorem stripBoth_all_false (f : Char → Bool) (l : List Char)
    (h : ∀ c ∈ l, f c = false) : stripBoth f l = l := by
  unfold stripBoth
  rw [dropWhile_all_false f l h,
    dropWhile_all_false f l.reverse (fun c hc => h c (List.mem_reverse.mp hc)),
    List.reverse_reverse]

theorem ne_of_lowerHex {c d : Char} (h : isLowerHex c = true)
    (hd : isLowerHex d = false) : c ≠ d :=
  fun he => absurd (he ▸ h) (by simp [hd])

theorem lowerHex_isHexDigit {c : Char} (h : isLowerHex c = true) : isHexDigit c = true := by
  simp only [isLowerHex, Bool.or_eq_true, Bool.and_eq_true, decide_eq_true_eq] at h
  simp only [isHexDigit, Bool.or_eq_true, Bool.and_eq_true, decide_eq_true_eq]
  omega

theorem lowerHex_not_space {c : Char} (h : isLowerHex c = true) : isPySpace c = false := by
  simp only [isLowerHex, Bool.or_eq_true, Bool.and_eq_true, decide_eq_true_eq] at h
  cases hsp : isPySpace c with
  | false => rfl
  | true =>
    exfalso
    simp only [isPySpace, Bool.or_eq_true, beq_iff_eq] at hsp
    omega

theorem lowerHex_not_brace {c : Char} (h : isLowerHex c = true) : isBrace c = false := by
  simp only [isLowerHex, Bool.or_eq_true, Bool.and_eq_true, decide_eq_true_eq] at h
  cases hsp : isBrace c with
  | false => rfl
  | true =>
    exfalso
    simp only [isBrace, Bool.or_eq_true, beq_iff_eq] at hsp
    omega

theorem hexRun_all : ∀ l : List Char, (∀ c ∈ l, isHexDigit c = true) → hexRun l = true := by
  intro l
  induction l with
  | nil => intro _; rfl
  | cons c rest ih =>
    intro h
    have hc : isHexDigit c = true := h c (by simp)
    have hne : c ≠ '_' := by
      intro he; rw [he] at hc; exact absurd hc (by decide)
    have hstep : hexRun (c :: rest) = (isHexDigit c && hexRun rest) := by
      rw [hexRun.eq_def]
      simp [hne]
    rw [hstep]
    simp [hc, ih (fun x hx => h x (by simp [hx]))]

theorem startsDigitRun_all (c : Char) (rest : List Char)
    (h : ∀ x ∈ c :: rest, isHexDigit x = true) : startsDigitRun (c :: rest) = true := by
  rw [startsDigitRun]
  simp [h c (by simp), hexRun_all rest (fun x hx => h x (by simp [hx]))]

theorem hexDigitVal_lt (c : Char) : hexDigitVal c < 16 := by
  unfold hexDigitVal
  split_ifs <;> omega

theorem hexVal_lt : ∀ (l : List Char) (acc : Nat), hexVal l acc < 16 ^ l.length * (acc + 1) := by
  intro l
  induction l with
  | nil =>
    intro acc
    simp only [hexVal, List.length_nil, pow_zero, one_mul]
    exact Nat.lt_succ_self acc
  | cons c rest ih =>
    intro acc
    rw [hexVal]
    by_cases hc : c = '_'
    · rw [if_pos hc]
      calc hexVal rest acc < 16 ^ rest.length * (acc + 1) := ih acc
        _ ≤ 16 ^ (c :: rest).length * (acc + 1) := by
            apply Nat.mul_le_mul_right
            exact Nat.pow_le_pow_right (by norm_num) (by simp)
    · rw [if_neg hc]
      have h2 : hexDigitVal c < 16 := hexDigitVal_lt c
      calc hexVal rest (16 * acc + hexDigitVal c)
          < 16 ^ rest.length * (16 * acc + hexDigitVal c + 1) := ih _
        _ ≤ 16 ^ rest.length * (16 * (acc + 1)) :=
            Nat.mul_le_mul_left _ (by omega)
        _ = 16 ^ (c :: rest).length * (acc + 1) := by
            simp [List.length_cons, pow_succ]
            ring

theorem univNewlines_no_cr :
    ∀ l : List Nat, (∀ b ∈ l, b ≠ 13) → univNewlines l = l := by
  intro l
  induction l with
  | nil => intro _; rfl
  | cons b rest ih =>
    intro h
    have hb : b ≠ 13 := h b (by simp)
    cases rest with
    | nil => simp [univNewlines, hb]
    | cons b2 r =>
      rw [univNewlines, if_neg hb, ih (fun x hx => h x (by simp [hx]))]

theorem canonical_pyUUIDOk {s : String} (h : isCanonicalUUID s) : pyUUIDOk s = true := by
  obtain ⟨a, b, c, d, e, ha, hb, hc, hd, he, hhex, hs⟩ := h
  have hpiece : ∀ ch, (ch ∈ a ∨ ch ∈ b ∨ ch ∈ c ∨ ch ∈ d ∨ ch ∈ e) → isLowerHex ch = true := by
    intro ch hp
    apply hhex
    simp only [List.mem_append]
    tauto
  have hmem : ∀ ch ∈ s.data, isLowerHex ch = true ∨ ch = '-' := by
    intro ch hch
    rw [hs] at hch
    simp only [List.mem_append, List.mem_cons] at hch
    have := hpiece ch
    tauto
  have hnu : 'u' ∉ s.data := by
    intro hu
    rcases hmem 'u' hu with hx | hx
    · exact absurd hx (by decide)
    · exact absurd hx (by decide)
  have hrep1 : removeAllSub 'u' ['r', 'n', ':'] s.data = s.data :=
    removeAllSub_not_mem _ _ _ hnu
  have hrep2 : removeAllSub 'u' ['u', 'i', 'd', ':'] s.data = s.data :=
    removeAllSub_not_mem _ _ _ hnu
  have hbr : stripBoth isBrace s.data = s.data := by
    apply stripBoth_all_false
    intro ch hch
    rcases hmem ch hch with hx | hx
    · exact lowerHex_not_brace hx
    · rw [hx]; decide
  have hfil : ∀ l0 : List Char, (∀ ch ∈ l0, isLowerHex ch = true) →
      l0.filter (fun x => x != '-') = l0 := by
    intro l0 hl0
    apply List.filter_eq_self.mpr
    intro ch hch
    exact bne_iff_ne.mpr (ne_of_lowerHex (hl0 ch hch) (by decide))
  have hhyp : removeAllSub '-' [] s.data = a ++ (b ++ (c ++ (d ++ e))) := by
    rw [removeAllSub_hyphens, hs]
    simp [List.filter_append, List.filter_cons,
      hfil a (fun ch hch => hpiece ch (by tauto)),
      hfil b (fun ch hch => hpiece ch (by tauto)),
      hfil c (fun ch hch => hpiece ch (by tauto)),
      hfil d (fun ch hch => hpiece ch (by tauto)),
      hfil e (fun ch hch => hpiece ch (by tauto))]
  have hallL : ∀ ch ∈ a ++ (b ++ (c ++ (d ++ e))), isLowerHex ch = true := by
    intro ch hch
    simp only [List.mem_append] at hch
    exact hpiece ch (by tauto)
  have hlen : (a ++ (b ++ (c ++ (d ++ e)))).length = 32 := by
    simp [List.length_append, ha, hb, hc, hd, he]
  obtain ⟨a0, atl, rfl⟩ : ∃ x xs, a = x :: xs := by
    cases a with
    | nil => simp at ha
    | cons x xs => exact ⟨x, xs, rfl⟩
  obtain ⟨a1, atl2, rfl⟩ : ∃ x xs, atl = x :: xs := by
    cases atl with
    | nil => simp at ha
    | cons x xs => exact ⟨x, xs, rfl⟩
  have ha0 : isLowerHex a0 = true := hallL a0 (by simp)
  have ha1 : isLowerHex a1 = true := hallL a1 (by simp)
  have hspace : stripBoth isPySpace ((a0 :: a1 :: atl2) ++ (b ++ (c ++ (d ++ e)))) =
      (a0 :: a1 :: atl2) ++ (b ++ (c ++ (d ++ e))) :=
    stripBoth_all_false _ _ (fun ch hch => lowerHex_not_space (hallL ch hch))
  have hsign : stripSign ((a0 :: a1 :: atl2) ++ (b ++ (c ++ (d ++ e)))) =
      (false, (a0 :: a1 :: atl2) ++ (b ++ (c ++ (d ++ e)))) := by
    simp only [List.cons_append]
    rw [stripSign]
    rw [if_neg (ne_of_lowerHex ha0 (by decide)), if_neg (ne_of_lowerHex ha0 (by decide))]
  have hbase : stripHexBase ((a0 :: a1 :: atl2) ++ (b ++ (c ++ (d ++ e)))) =
      (a0 :: a1 :: atl2) ++ (b ++ (c ++ (d ++ e))) := by
    have hcond : ¬(a0 = '0' ∧ (a1 = 'x' ∨ a1 = 'X')) := by
      rintro ⟨-, hx | hx⟩ <;> exact absurd (hx ▸ ha1) (by decide)
    simp only [List.cons_append]
    rw [stripHexBase, if_neg hcond]
  have hrun : startsDigitRun ((a0 :: a1 :: atl2) ++ (b ++ (c ++ (d ++ e)))) = true := by
    simp only [List.cons_append]
    exact startsDigitRun_all a0 _
      (fun x hx => lowerHex_isHexDigit (hallL x (by simpa using hx)))
  have hvlt : hexVal ((a0 :: a1 :: atl2) ++ (b ++ (c ++ (d ++ e)))) 0 < 2 ^ 128 := by
    have h1 := hexVal_lt ((a0 :: a1 :: atl2) ++ (b ++ (c ++ (d ++ e)))) 0
    rw [hlen] at h1
    have h2 : (16 : Nat) ^ 32 * (0 + 1) = 2 ^ 128 := by
      rw [show (16 : Nat) = 2 ^ 4 from rfl, ← pow_mul]
      norm_num
    exact lt_of_lt_of_le h1 (le_of_eq h2)
  have ha' : atl2.length = 6 := by simpa using ha
  simp only [pyUUIDOk, hrep1, hrep2, hbr, hhyp]
  simp only [pyIntHexOk, hspace, hsign, hbase]
  simp [ha', hb, hc, hd, he]
  refine ⟨hrun, ?_⟩
  simpa using hvlt

/-! ## Claim theorems -/

/-- C5: if any element of the argument list contains one of `;`, `&`, `|`,
backtick, `$`, newline or carriage return, argument validation rejects the
entire list, and `/execute` fails with a validation error regardless of the
other elements and of every other input. -/
theorem C5_args_metachar_rejected (args : List String) (a : String) (c : Char)
    (ha : a ∈ args)
    (hc : c ∈ [';', '&', '|', Char.ofNat 96, '$', '\n', '\r'])
    (hin : c ∈ a.data) :
    validate_args args = false ∧
    ∀ (fs : FS) (henv : List (String × String)) (uid binary : String),
      execute_command fs henv uid binary args = .err ⟨422, "request validation failed"⟩ := by
  have hcf : argForbiddenChar c = true := by
    simp only [List.mem_cons, List.not_mem_nil, or_false] at hc
    rcases hc with h | h | h | h | h | h | h <;> subst h <;> decide
  have hany : a.data.any argForbiddenChar = true := List.any_eq_true.mpr ⟨c, hin, hcf⟩
  have hA : argOk a = false := by simp [argOk, hany]
  have hargs : validate_args args = false := by
    cases hv : validate_args args with
    | false => rfl
    | true => exact absurd (List.all_eq_true.mp hv a ha) (by simp [hA])
  refine ⟨hargs, fun fs henv uid binary => ?_⟩
  simp [execute_command, commandRequestValid, hargs]

/-- C5 witness: the concrete list `["x", "a;b"]` (second element contains
`;`) is rejected and `/execute` fails with a validation error. -/
theorem C5_witness :
    validate_args ["x", "a;b"] = false ∧
    ∀ (fs : FS) (henv : List (String × String)) (uid binary : String),
      execute_command fs henv uid binary ["x", "a;b"] =
        .err ⟨422, "request validation failed"⟩ :=
  C5_args_metachar_rejected ["x", "a;b"] "a;b" ';'
    (by decide) (by decide) (by decide)

/-- C6: the code contradicts the claim.  On timeout `subprocess.run` kills
only the directly spawned child's pid; with the process tree consisting of
the child (pid 1) and a grandchild it spawned (pid 2), the grandchild is a
descendant of the child yet remains in the process list after the code's
timeout handling — the claim requires every descendant to be terminated.
The `TimedOut` report itself matches the code's 408 response. -/
theorem C6_timeout_leaves_descendant :
    isDescendant [⟨1, 0⟩, ⟨2, 1⟩] 2 2 1 = true ∧
    timeoutKill [⟨1, 0⟩, ⟨2, 1⟩] 1 = [⟨2, 1⟩] ∧
    (timeoutKill [⟨1, 0⟩, ⟨2, 1⟩] 1).any (fun q => isDescendant [⟨1, 0⟩, ⟨2, 1⟩] 2 q.pid 1) = true ∧
    execute_timeout_response = ⟨408, "Command timed out after 300 seconds"⟩ := by
  refine ⟨by decide, by decide, by decide, rfl⟩

/-- C7: when writing the initial file fails after the workspace directory
was created, `/upload` reports a `ResourceError` (500, "Failed to save
file") and the created directory and everything under it no longer exist:
no partially created workspace remains observable. -/
theorem C7_upload_rollback (fs : FS) (uid filename : String) (content : List Nat)
    (hval : validate_filename filename = true)
    (hsz : content.length ≤ MAX_FILE_SIZE)
    (hutf : utf8Valid content = true)
    (hfresh : fs.ex (pathJoin WORK_DIR uid) = false) :
    (upload_file fs uid filename content false).1 = .err ⟨500, "Failed to save file"⟩ ∧
    ∀ p, underDirB (pathJoin WORK_DIR uid) p = true →
      ((upload_file fs uid filename content false).2).ex p = false := by
  have hsz' : ¬ MAX_FILE_SIZE < content.length := Nat.not_lt.mpr hsz
  constructor
  · simp [upload_file, hval, hutf, hfresh, hsz', validate_file_content]
  · intro p hp
    simp [upload_file, hval, hutf, hfresh, hsz', validate_file_content, rmtreeFS, hp]

/-- C7 witness: a concrete failing upload into the empty filesystem rolls
the workspace back. -/
theorem C7_witness :
    (upload_file fsEmpty uidA "a.cha" [104, 105] false).1 =
      .err ⟨500, "Failed to save file"⟩ ∧
    ((upload_file fsEmpty uidA "a.cha" [104, 105] false).2).ex wpA = false := by
  have h := C7_upload_rollback fsEmpty uidA "a.cha" [104, 105]
    (by decide) (by decide) (by decide) (by decide)
  exact ⟨h.1, h.2 wpA (underDirB_self wpA)⟩

/-- C8: for a validated identifier whose workspace does not exist,
`/cleanup` fails with 404 and leaves the filesystem unchanged; and after
any successful destroy of the same identifier, a second destroy fails with
404 — destroy never succeeds twice. -/
theorem C8_destroy_idempotent (fs : FS) (uid : String)
    (hu : pyUUIDOk uid = true) :
    (fs.ex (pathJoin WORK_DIR uid) = false →
      cleanup_workspace fs uid = (.err ⟨404, "Workspace not found"⟩, fs)) ∧
    ∀ r : String, (cleanup_workspace fs uid).1 = .ok r →
      (cleanup_workspace (cleanup_workspace fs uid).2 uid).1 =
        .err ⟨404, "Workspace not found"⟩ := by
  constructor
  · intro hne
    simp [cleanup_workspace, hu, hne]
  · intro r h
    by_cases hex : fs.ex (pathJoin WORK_DIR uid)
    · by_cases hpre : pyStartswith (fs.resolve (pathJoin WORK_DIR uid)) (fs.resolve WORK_DIR)
      · have h2 : (cleanup_workspace fs uid).2 = rmtreeFS fs (pathJoin WORK_DIR uid) := by
          simp [cleanup_workspace, hu, hex, hpre]
        rw [h2]
        have hgone : (rmtreeFS fs (pathJoin WORK_DIR uid)).ex (pathJoin WORK_DIR uid) = false := by
          simp [rmtreeFS, underDirB_self]
        simp [cleanup_workspace, hu, hgone]
      · exact absurd h (by simp [cleanup_workspace, hu, hex, hpre])
    · exact absurd h (by simp [cleanup_workspace, hu, hex])

/-- C8 witness: destroying the active workspace `uidA` succeeds once, and
destroying it again returns 404. -/
theorem C8_witness :
    (cleanup_workspace (cleanup_workspace fsAct uidA).2 uidA).1 =
      .err ⟨404, "Workspace not found"⟩ :=
  (C8_destroy_idempotent fsAct uidA (by decide)).2 uidA (by decide)

/-- C9: the `/execute` handler's result is identical for any two host
environments, and whenever a subprocess is launched it is launched with
`shell = False`, working directory the workspace directory, and an
environment that is exactly `PATH = BIN_DIR`, `HOME = workspace`,
`LANG = "C.UTF-8"` — fully replaced, never inherited. -/
theorem C9_env_scrubbed (fs : FS) (henv1 henv2 : List (String × String))
    (uid binary : String) (args : List String) :
    execute_command fs henv1 uid binary args = execute_command fs henv2 uid binary args ∧
    ∀ call, execute_command fs henv1 uid binary args = .ok call →
      call.shell = false ∧
      call.cwd = pathJoin WORK_DIR uid ∧
      call.env = [("PATH", BIN_DIR), ("HOME", pathJoin WORK_DIR uid), ("LANG", "C.UTF-8")] ∧
      call.argv = pathJoin BIN_DIR (pyBasename binary) :: args ∧
      call.timeoutSec = COMMAND_TIMEOUT := by
  refine ⟨rfl, ?_⟩
  intro call h
  simp only [execute_command] at h
  split at h
  · exact Resp.noConfusion h
  · split at h
    · exact Resp.noConfusion h
    · split at h
      · exact Resp.noConfusion h
      · split at h
        · exact Resp.noConfusion h
        · split at h
          · exact Resp.noConfusion h
          · cases h
            exact ⟨rfl, rfl, rfl, rfl, rfl⟩

/-- C9 witness: with the workspace `uidA` active and the binary `freq`
present, the invocation parameters are as stated, for the concrete host
environment `[("SECRET", "x")]`. -/
theorem C9_witness :
    ∃ call, execute_command fsAct [("SECRET", "x")] uidA "freq" ["chip.cha"] = .ok call ∧
      call.shell = false ∧ call.cwd = wpA ∧
      call.env = [("PATH", BIN_DIR), ("HOME", wpA), ("LANG", "C.UTF-8")] := by
  refine ⟨_, rfl, ?_⟩
  have h := (C9_env_scrubbed fsAct [("SECRET", "x")] [] uidA "freq" ["chip.cha"]).2 _ rfl
  exact ⟨h.1, h.2.1, h.2.2.1⟩

/-- C2 counterexample: identifier validation is `uuid.UUID(v)`, which also
accepts non-canonical forms.  The 32-hex-digit string with no hyphens
passes validation — it is not a canonical hyphenated UUID, yet `/list`
proceeds past validation (it reports 404, not the claimed
`ValidationError`). -/
theorem C2_counterexample :
    pyUUIDOk "00000000000000000000000000000000" = true ∧
    ¬ isCanonicalUUID "00000000000000000000000000000000" ∧
    list_files fsEmpty "00000000000000000000000000000000" =
      .err ⟨404, "Workspace not found"⟩ := by
  refine ⟨by decide, ?_, by decide⟩
  rintro ⟨a, b, c, d, e, -, -, -, -, -, -, hs⟩
  have hm : '-' ∈ ("00000000000000000000000000000000" : String).data := by
    rw [hs]; simp
  exact absurd hm (by decide)

/-- C2 (amended): identifier validation accepts exactly the strings
`uuid.UUID` accepts — after deleting every `urn:` and `uuid:`, stripping
curly braces from the ends and deleting all hyphens, 32 characters that
parse as a hexadecimal integer below `2 ^ 128`.  Every canonical
hyphenated-hex UUID passes, but so do non-canonical forms.  For every
string failing this check, each identifier-accepting operation (list,
read, destroy, execute) fails with a validation error and, for every
filesystem state, performs no filesystem access and no state change. -/
theorem C2_amended_validation (s : String) :
    (isCanonicalUUID s → pyUUIDOk s = true) ∧
    (pyUUIDOk s = false →
      (∀ fs : FS, list_files fs s = .err ⟨400, "Invalid unique_id format"⟩) ∧
      (∀ (fs : FS) (fn : String),
        download_file fs s fn = .err ⟨400, "Invalid unique_id format"⟩) ∧
      (∀ fs : FS, cleanup_workspace fs s = (.err ⟨400, "Invalid unique_id format"⟩, fs)) ∧
      (∀ (fs : FS) (henv : List (String × String)) (binary : String) (args : List String),
        execute_command fs henv s binary args = .err ⟨422, "request validation failed"⟩)) := by
  refine ⟨fun h => canonical_pyUUIDOk h, fun hbad => ⟨?_, ?_, ?_, ?_⟩⟩
  · intro fs; simp [list_files, hbad]
  · intro fs fn; simp [download_file, hbad]
  · intro fs; simp [cleanup_workspace, hbad]
  · intro fs henv binary args
    simp [execute_command, commandRequestValid, validate_unique_id, hbad]

/-- C2 witness: a concrete canonical UUID passes validation, and `/list`
rejects the concrete non-UUID `"zz"` on every filesystem, here the empty
one. -/
theorem C2_witness :
    pyUUIDOk "12345678-1234-1234-1234-123456789abc" = true ∧
    list_files fsEmpty "zz" = .err ⟨400, "Invalid unique_id format"⟩ := by
  constructor
  · apply (C2_amended_validation "12345678-1234-1234-1234-123456789abc").1
    exact ⟨"12345678".data, "1234".data, "1234".data, "1234".data, "123456789abc".data,
      by decide, by decide, by decide, by decide, by decide, by decide, by decide⟩
  · exact ((C2_amended_validation "zz").2 (by decide)).1 fsEmpty

/-- C1 counterexample: the containment check of `/execute` is
`str.startswith` on the resolved path strings.  With a planted symlink
`evil` in `BIN_DIR` resolving to `/webclan/unix/binx/evil` — a path outside
the binaries directory whose string extends `"/webclan/unix/bin"` — the
check passes and the subprocess is launched, contradicting the claim that
any resolution outside the directory yields `BinaryError`. -/
theorem C1_counterexample :
    execute_command fsC1 [] uidA "evil" [] =
      .ok { argv := [pathJoin BIN_DIR "evil"], cwd := wpA, captureOutput := true,
            timeoutSec := 300, shell := false, textMode := true,
            env := [("PATH", BIN_DIR), ("HOME", wpA), ("LANG", "C.UTF-8")] } ∧
    underDirB BIN_DIR (fsC1.resolve (pathJoin BIN_DIR "evil")) = false :=
  ⟨by decide, by decide⟩

/-- C1 (amended): if the resolved binary path does not have the resolved
binaries-directory path as a string prefix, `/execute` fails with 403 and
no subprocess is launched (the handler returns before `subprocess.run`).
The comparison is a string-prefix test, so resolved paths that extend the
directory's path string (such as a sibling `/webclan/unix/binx`) are
admitted. -/
theorem C1_amended_prefix_check (fs : FS) (henv : List (String × String))
    (uid binary : String) (args : List String)
    (hreq : commandRequestValid uid binary args = true)
    (hwp : fs.ex (pathJoin WORK_DIR uid) = true)
    (hwd : fs.isDir (pathJoin WORK_DIR uid) = true)
    (hbe : fs.ex (pathJoin BIN_DIR (pyBasename binary)) = true)
    (hbx : fs.xok (pathJoin BIN_DIR (pyBasename binary)) = true)
    (hpre : pyStartswith (fs.resolve (pathJoin BIN_DIR (pyBasename binary)))
              (fs.resolve BIN_DIR) = false) :
    execute_command fs henv uid binary args = .err ⟨403, "Failed to resolve binary path"⟩ := by
  simp [execute_command, hreq, hwp, hwd, hbe, hbx, hpre]

/-- C1 witness: a symlink resolving to `/etc/evil` is refused with 403. -/
theorem C1_witness :
    execute_command fsC1w [] uidA "evil" [] = .err ⟨403, "Failed to resolve binary path"⟩ :=
  C1_amended_prefix_check fsC1w [] uidA "evil" []
    (by decide) (by decide) (by decide) (by decide) (by decide) (by decide)

/-- C3 counterexample: uploading the valid UTF-8 content `"a\r\nb"`
(bytes `[97, 13, 10, 98]`) and reading it back returns `"a\nb"` (bytes
`[97, 10, 98]`): the text-mode read applies universal-newline translation,
so the round trip is not byte-identical. -/
theorem C3_counterexample :
    (upload_file fsEmpty uidA "a.cha" [97, 13, 10, 98] true).1 =
      .ok ⟨uidA, "a.cha", 4, pathJoin wpA "a.cha"⟩ ∧
    download_file (upload_file fsEmpty uidA "a.cha" [97, 13, 10, 98] true).2 uidA "a.cha" =
      .ok ⟨uidA, "a.cha", 3, [97, 10, 98]⟩ ∧
    ([97, 10, 98] : List Nat) ≠ [97, 13, 10, 98] :=
  ⟨by decide, by decide, by decide⟩

/-- C3 (amended): uploading valid content `C` under a valid filename and
reading it back returns text whose UTF-8 bytes are `C` with
universal-newline translation applied (`\r\n` and lone `\r` become `\n`);
the bytes are identical to `C` whenever `C` contains no carriage return. -/
theorem C3_roundtrip (fs : FS) (uid filename : String) (C : List Nat)
    (hval : validate_filename filename = true)
    (hsz : C.length ≤ MAX_FILE_SIZE)
    (hutf : utf8Valid C = true)
    (hu : pyUUIDOk uid = true)
    (hfresh : fs.ex (pathJoin WORK_DIR uid) = false)
    (hr1 : fs.resolve (pathJoin WORK_DIR uid) = pathJoin WORK_DIR uid)
    (hr2 : fs.resolve (pathJoin (pathJoin WORK_DIR uid) filename) =
             pathJoin (pathJoin WORK_DIR uid) filename) :
    download_file (upload_file fs uid filename C true).2 uid filename =
      .ok ⟨uid, filename, (univNewlines C).length, univNewlines C⟩ ∧
    ((∀ b ∈ C, b ≠ 13) → univNewlines C = C) := by
  have hsz' : ¬ MAX_FILE_SIZE < C.length := Nat.not_lt.mpr hsz
  refine ⟨?_, univNewlines_no_cr C⟩
  have hv := hval
  simp only [validate_filename, Bool.and_eq_true, Bool.not_eq_true'] at hv
  obtain ⟨⟨⟨⟨hext, h1⟩, h2⟩, h3⟩, h4⟩ := hv
  have hfs2 : (upload_file fs uid filename C true).2 =
      writeFileFS (mkdirFS fs (pathJoin WORK_DIR uid))
        (pathJoin (pathJoin WORK_DIR uid) filename) C := by
    simp [upload_file, hval, hutf, hfresh, hsz', validate_file_content]
  rw [hfs2]
  have hne : pathJoin WORK_DIR uid ≠ pathJoin (pathJoin WORK_DIR uid) filename :=
    fun h => pathJoin_ne (pathJoin WORK_DIR uid) filename h.symm
  have hstart : pyStartswith (fs.resolve (pathJoin (pathJoin WORK_DIR uid) filename))
      (fs.resolve (pathJoin WORK_DIR uid)) = true := by
    rw [hr1, hr2]; exact pyStartswith_pathJoin (pathJoin WORK_DIR uid) filename
  simp [download_file, hu, h1, h2, h3, h4, writeFileFS, mkdirFS, hne, hstart, hr1, hr2, hutf,
    pyStartswith_pathJoin]

/-- C3 witness: content without carriage returns round-trips
byte-identically. -/
theorem C3_witness :
    download_file (upload_file fsEmpty uidA "hi.cha" [104, 105] true).2 uidA "hi.cha" =
      .ok ⟨uidA, "hi.cha", 2, [104, 105]⟩ := by
  have h := C3_roundtrip fsEmpty uidA "hi.cha" [104, 105]
    (by decide) (by decide) (by decide) (by decide) (by decide) rfl rfl
  rw [h.1]
  decide

/-- C4 counterexample: the containment check of `/download` is
`str.startswith` on the resolved path strings.  A symlink `link` inside the
workspace resolving to `/webclan/work/<id>-evil/secret` — outside the
workspace directory but extending its path string — passes the check, and
the foreign content is returned, contradicting the claim that such a read
fails. -/
theorem C4_counterexample :
    download_file fsC4 uidA "link" = .ok ⟨uidA, "link", 1, [115]⟩ ∧
    underDirB wpA (fsC4.resolve (pathJoin wpA "link")) = false :=
  ⟨by decide, by decide⟩

/-- C4 (amended): `/download` fails with 403 (and returns no content)
whenever the resolved file path does not have the resolved workspace path
as a string prefix; symlinks escaping the workspace go undetected only when
their resolved path string extends the workspace path (e.g. a sibling
directory whose name extends the workspace id), and `/list` performs no
resolution check at all. -/
theorem C4_amended_prefix_check (fs : FS) (uid filename : String)
    (hu : pyUUIDOk uid = true)
    (hs1 : filename.data.any (fun c => c == '/') = false)
    (hs2 : filename.data.any (fun c => c == '\\') = false)
    (hs3 : hasDotDot filename.data = false)
    (hre : reMatchPlusNL validFilenameChar filename = true)
    (hwp : fs.ex (pathJoin WORK_DIR uid) = true)
    (hfe : fs.ex (pathJoin (pathJoin WORK_DIR uid) filename) = true)
    (hff : fs.isFile (pathJoin (pathJoin WORK_DIR uid) filename) = true)
    (hpre : pyStartswith (fs.resolve (pathJoin (pathJoin WORK_DIR uid) filename))
              (fs.resolve (pathJoin WORK_DIR uid)) = false) :
    download_file fs uid filename = .err ⟨403, "Failed to resolve file path"⟩ := by
  simp [download_file, hu, hs1, hs2, hs3, hre, hwp, hfe, hff, hpre]

/-- C4 witness: a symlink resolving to `/etc/passwd` is refused with 403
rather than read. -/
theorem C4_witness :
    download_file fsC4w uidA "link" = .err ⟨403, "Failed to resolve file path"⟩ :=
  C4_amended_prefix_check fsC4w uidA "link"
    (by decide) (by decide) (by decide) (by decide) (by decide)
    (by decide) (by decide) (by decide) (by decide)

/-- C10: a successful upload answers with the workspace id, the filename,
the content size, and the absolute server-side path of the stored file —
the workspace root joined with the id and the filename. -/
theorem C10_upload_response_path (fs : FS) (uid filename : String) (content : List Nat)
    (hval : validate_filename filename = true)
    (hsz : content.length ≤ MAX_FILE_SIZE)
    (hutf : utf8Valid content = true)
    (hfresh : fs.ex (pathJoin WORK_DIR uid) = false) :
    (upload_file fs uid filename content true).1 =
      .ok ⟨uid, filename, content.length, pathJoin (pathJoin WORK_DIR uid) filename⟩ := by
  have hsz' : ¬ MAX_FILE_SIZE < content.length := Nat.not_lt.mpr hsz
  simp [upload_file, hval, hutf, hfresh, hsz', validate_file_content]

/-- C10 witness: a concrete successful upload returns the stored file's
absolute path. -/
theorem C10_witness :
    (upload_file fsEmpty uidA "a.cha" [104, 105] true).1 =
      .ok ⟨uidA, "a.cha", 2, pathJoin wpA "a.cha"⟩ :=
  C10_upload_response_path fsEmpty uidA "a.cha" [104, 105]
    (by decide) (by decide) (by decide) (by decide)

end Webclan
